import Mathlib

/-!
Shallow embedding of the q2-proto client core (Quake 2 protocol 34 client).

Bytes on the wire are modelled as `Nat` values; every read normalises with
`% 256`, matching the `u8` type of the source.  Machine integers are `Nat`
with explicit `% 2^w` masking where the source masks (`& 0x7FFFFFFF` is
`% 2^31`; testing `& 0x80000000 != 0` on a `u32` is `2^31 ≤ ·`).  Fallible
Rust code (`Option`, `Result`, panicking `unwrap` and slice indexing)
becomes `Option`, with `none` for both error returns and panics as noted
at each definition.
-/

namespace Q2Proto

/-- `MAX_WRITEABLE_SIZE` from src/lib.rs. -/
def MAX_WRITEABLE_SIZE : Nat := 4096

/-- `MAX_NET_STRING` from src/lib.rs. -/
def MAX_NET_STRING : Nat := 2048

/-- A read cursor over immutable byte data (`std::io::Cursor<&[u8]>`). -/
structure RCursor where
  data : List Nat
  pos : Nat
deriving DecidableEq

/-- `read_u8`: one byte at the cursor, advancing it; fails at end of data.
Wire bytes are octets, hence the `% 256` normalisation. -/
def readU8 (c : RCursor) : Option (Nat × RCursor) :=
  match c.data.get? c.pos with
  | some b => some (b % 256, { c with pos := c.pos + 1 })
  | none => none

/-- `read_u16::<LittleEndian>`. -/
def readU16le (c : RCursor) : Option (Nat × RCursor) := do
  let (b0, c1) ← readU8 c
  let (b1, c2) ← readU8 c1
  pure (b0 + 256 * b1, c2)

/-- `read_u32::<LittleEndian>`. -/
def readU32le (c : RCursor) : Option (Nat × RCursor) := do
  let (b0, c1) ← readU8 c
  let (b1, c2) ← readU8 c1
  let (b2, c3) ← readU8 c2
  let (b3, c4) ← readU8 c3
  pure (b0 + 256 * b1 + 65536 * b2 + 16777216 * b3, c4)

/-- Two's-complement reading of a 16-bit raw value (`i16`). -/
def toI16 (n : Nat) : Int := if n < 32768 then (n : Int) else (n : Int) - 65536

/-- `read_i16::<LittleEndian>`. -/
def readI16le (c : RCursor) : Option (Int × RCursor) :=
  (readU16le c).map (fun p => (toI16 p.1, p.2))

/-- `read_i8`, sign-extended. -/
def readI8 (c : RCursor) : Option (Int × RCursor) :=
  (readU8 c).map (fun p => ((if p.1 < 128 then (p.1 : Int) else (p.1 : Int) - 256), p.2))

/-- Little-endian bytes of a `u32` write (`write_u32::<LittleEndian>`). -/
def u32ToLE (n : Nat) : List Nat :=
  [n % 256, n / 256 % 256, n / 65536 % 256, n / 16777216 % 256]

/-- Little-endian bytes of a `u16` write (`write_u16::<LittleEndian>`). -/
def u16ToLE (n : Nat) : List Nat := [n % 256, n / 256 % 256]

/-- `write_all` on a `Cursor<[u8; MAX_WRITEABLE_SIZE]>` (the fixed 4096-byte
buffers: `reliable_buf` and the scratch packet).  The buffer is modelled as
the list of bytes written so far (the cursor position is its length).
The write succeeds only if everything fits; a partial write makes Rust's
`write_all` return `Err(WriteZero)`, hence `none`. -/
def cursorWriteAll (buf : List Nat) (bytes : List Nat) : Option (List Nat) :=
  if buf.length + bytes.length ≤ MAX_WRITEABLE_SIZE then some (buf ++ bytes) else none

/-- `MsgBuf` from src/proto/msg_buf.rs: a `Cursor<Vec<u8>>`.  The backing
`Vec` grows on demand (`Vec::with_capacity` only pre-allocates), so writes
through this cursor never fail.  Modelled as the written prefix. -/
structure MsgBuf where
  buf : List Nat
deriving DecidableEq

/-- `MsgBuf::new` (any initial capacity): empty written prefix. -/
def MsgBuf.new : MsgBuf := { buf := [] }

/-- A raw `write_u8` through `MsgBuf.cur` (always succeeds on a `Vec`). -/
def MsgBuf.writeU8 (m : MsgBuf) (b : Nat) : MsgBuf := { buf := m.buf ++ [b % 256] }

/-- A raw `write_all` through `MsgBuf.cur` (always succeeds on a `Vec`). -/
def MsgBuf.writeAll (m : MsgBuf) (bytes : List Nat) : MsgBuf := { buf := m.buf ++ bytes }

/-- `MsgBuf::write_string`: reject strings longer than `MAX_NET_STRING`,
still emitting the single `0` byte before failing; otherwise append the
string bytes and a NUL terminator.  The `Bool` is `is_some` of the Rust
`Option<()>` result. -/
def MsgBuf.write_string (m : MsgBuf) (s : List Nat) : MsgBuf × Bool :=
  if s.length > MAX_NET_STRING then (m.writeU8 0, false)
  else ((m.writeAll s).writeU8 0, true)

/-- `str::split(sep)` at byte level: split on a separator byte, keeping
empty chunks, always returning at least one chunk. -/
def splitOnByte (sep : Nat) : List Nat → List (List Nat)
  | [] => [[]]
  | b :: rest =>
    if b = sep then [] :: splitOnByte sep rest
    else
      match splitOnByte sep rest with
      | h :: t => (b :: h) :: t
      | [] => [[b]]

/-! ## NetChanVanilla (src/proto/netchan.rs)

The channel state.  `message` is the application `MsgBuf` (growable);
`reliable_buf` is a `Cursor<[u8; MAX_WRITEABLE_SIZE]>` modelled as its
written prefix (the cursor position is its length; `rewind` empties it). -/

structure NetChanVanilla where
  message : MsgBuf
  incoming_sequence : Nat
  incoming_acknowledged : Nat
  last_sent_reliable_sequence : Nat
  outgoing_sequence : Nat
  incoming_reliable_acknowledged : Bool
  incoming_reliable_sequence : Bool
  reliable_sequence : Bool
  is_reliable_ack_pending : Bool
  is_client : Bool
  qport : Nat
  reliable_buf : List Nat
deriving DecidableEq

/-- `NetChanVanilla::new`. -/
def NetChanVanilla.new (is_client : Bool) (qport : Nat) : NetChanVanilla :=
  { message := MsgBuf.new
    incoming_sequence := 0
    incoming_acknowledged := 0
    reliable_sequence := false
    incoming_reliable_acknowledged := false
    incoming_reliable_sequence := false
    last_sent_reliable_sequence := 0
    outgoing_sequence := 1
    is_client := is_client
    qport := qport % 65536
    is_reliable_ack_pending := false
    reliable_buf := [] }

/-- `NetChanVanilla::process`.  Returns the accept flag and the updated
state (the caller goes on reading the command stream from the same cursor;
only the channel state matters for the claims).  When acting as a server
the code also reads a `u16` qport, which touches only the cursor, never
the channel state.  `seq & 0x80000000 != 0` on a `u32` is `2^31 ≤ seq`;
`seq & 0x7FFFFFFF` is `seq % 2^31`. -/
def NetChanVanilla.process (st : NetChanVanilla) (cur : RCursor) :
    Bool × NetChanVanilla :=
  match readU32le cur with
  | none => (false, st)
  | some (seq0, c1) =>
    match readU32le c1 with
    | none => (false, st)
    | some (ack0, _c2) =>
      let is_reliable_message := decide (2147483648 ≤ seq0)
      let is_reliable_ack := decide (2147483648 ≤ ack0)
      let seq := seq0 % 2147483648
      let seq_ack := ack0 % 2147483648
      if seq ≤ st.incoming_sequence then (false, st)
      else
        let st1 := { st with incoming_reliable_acknowledged := is_reliable_ack }
        let st2 :=
          if is_reliable_ack = st1.reliable_sequence then { st1 with reliable_buf := [] }
          else st1
        let st3 := { st2 with incoming_sequence := seq, incoming_acknowledged := seq_ack }
        let st4 :=
          if is_reliable_message then
            { st3 with is_reliable_ack_pending := true,
                       incoming_reliable_sequence := !st3.incoming_reliable_sequence }
          else st3
        (true, st4)

/-- `NetChanVanilla::transmit`.  Returns `none` when the source panics:
the `unwrap`ed `write_all` into `reliable_buf` or into the scratch packet
fails for lack of space.  The packet is the written prefix of the scratch
`Cursor<[u8; MAX_WRITEABLE_SIZE]>`.  Setting the high bit on a 31-bit
masked value is addition of `2^31`. -/
def NetChanVanilla.transmit (st : NetChanVanilla) (data : List Nat) :
    Option (NetChanVanilla × List Nat) := do
  let ssr0 := decide (st.last_sent_reliable_sequence < st.incoming_acknowledged) &&
              (st.incoming_reliable_acknowledged != st.reliable_sequence)
  let (st1, ssr) ←
    if st.message.buf.length > 0 && st.reliable_buf.length == 0 then do
      let rb ← cursorWriteAll st.reliable_buf st.message.buf
      pure ({ st with message := MsgBuf.new, reliable_buf := rb,
                      reliable_sequence := !st.reliable_sequence }, true)
    else pure (st, ssr0)
  let outgoing_seq := st1.outgoing_sequence % 2147483648 +
                      (if ssr then 2147483648 else 0)
  let incoming_seq := st1.incoming_sequence % 2147483648 +
                      (if st1.incoming_reliable_sequence then 2147483648 else 0)
  let pkt1 ← cursorWriteAll [] (u32ToLE outgoing_seq)
  let pkt2 ← cursorWriteAll pkt1 (u32ToLE incoming_seq)
  let pkt3 ← if st1.is_client then cursorWriteAll pkt2 (u16ToLE st1.qport) else pure pkt2
  let (st2, pkt4) ←
    if ssr then do
      let p ← cursorWriteAll pkt3 st1.reliable_buf
      pure ({ st1 with last_sent_reliable_sequence := st1.outgoing_sequence }, p)
    else pure (st1, pkt3)
  let pkt5 :=
    if MAX_WRITEABLE_SIZE - pkt4.length ≥ data.length && data.length > 0 then pkt4 ++ data
    else pkt4
  pure ({ st2 with outgoing_sequence := (st2.outgoing_sequence + 1) % 4294967296,
                   is_reliable_ack_pending := false }, pkt5)

/-- `NetChanVanilla::should_transmit`. -/
def NetChanVanilla.should_transmit (st : NetChanVanilla) : Bool :=
  st.is_reliable_ack_pending || st.message.buf.length > 0 || st.reliable_buf.length > 0

/-! ## Theorems about `process` and `transmit` -/

/-- C2: `process` accepts a packet only when its 31-bit masked sequence is
strictly greater than `incoming_sequence` (the accepted sequence becomes
the new `incoming_sequence`); a rejected packet — stale or duplicate
sequence, or a short header read — returns `false` and leaves every field
of the channel state unchanged. -/
theorem c2_process_monotonic_no_mutation (st : NetChanVanilla) (cur : RCursor) :
    ((st.process cur).1 = false → (st.process cur).2 = st) ∧
    ((st.process cur).1 = true →
      ∃ q, readU32le cur = some q ∧
        (st.process cur).2.incoming_sequence = q.1 % 2147483648 ∧
        st.incoming_sequence < (st.process cur).2.incoming_sequence) := by
  rcases h1 : readU32le cur with _ | ⟨seq0, c1⟩
  · simp [NetChanVanilla.process, h1]
  · rcases h2 : readU32le c1 with _ | ⟨ack0, c2⟩
    · simp [NetChanVanilla.process, h1, h2]
    · by_cases hle : seq0 % 2147483648 ≤ st.incoming_sequence
      · simp [NetChanVanilla.process, h1, h2, hle]
      · constructor
        · intro hfalse
          simp [NetChanVanilla.process, h1, h2, hle] at hfalse
        · intro _
          refine ⟨(seq0, c1), rfl, ?_, ?_⟩
          · simp only [NetChanVanilla.process, h1, h2, hle, if_false]
            split <;> split <;> rfl
          · simp only [NetChanVanilla.process, h1, h2, hle, if_false]
            have hlt : st.incoming_sequence < seq0 % 2147483648 := by omega
            split <;> split <;> simpa

/-- Witness for C2 at concrete inputs: a short datagram is rejected
without touching the state, exercising the theorem's first implication. -/
theorem c2_witness :
    (((NetChanVanilla.new true 0).process ⟨[7], 0⟩).2 = NetChanVanilla.new true 0) :=
  (c2_process_monotonic_no_mutation (NetChanVanilla.new true 0) ⟨[7], 0⟩).1 (by decide)

/-- Counterexample to C1 as stated: from the fresh channel, one accepted
packet whose ack field carries the reliable-ack bit (`ack = 2^31 + 5`)
yields a reachable state with `reliable_buf` and `message` both empty but
`incoming_reliable_acknowledged ≠ reliable_sequence` and
`incoming_acknowledged = 5 > last_sent_reliable_sequence = 0`.  The next
`transmit` then sets the outgoing reliable flag (`2^31 ≤` the packet's
leading u32) although the packet is the bare 10-byte client header — it
carries no reliable payload at all, and `reliable_buf` held no data. -/
theorem c1_counterexample :
    ((NetChanVanilla.new true 0).process
        ⟨u32ToLE 1 ++ u32ToLE (2147483648 + 5), 0⟩).1 = true ∧
    (((NetChanVanilla.new true 0).process
        ⟨u32ToLE 1 ++ u32ToLE (2147483648 + 5), 0⟩).2.reliable_buf = [] ∧
     ((NetChanVanilla.new true 0).process
        ⟨u32ToLE 1 ++ u32ToLE (2147483648 + 5), 0⟩).2.message.buf = []) ∧
    ((((NetChanVanilla.new true 0).process
        ⟨u32ToLE 1 ++ u32ToLE (2147483648 + 5), 0⟩).2.transmit []).map
          (fun r => r.2) = some [1, 0, 0, 128, 1, 0, 0, 0, 0, 0] ∧
     (readU32le ⟨[1, 0, 0, 128, 1, 0, 0, 0, 0, 0], 0⟩).map (fun p => p.1) =
        some (2147483648 + 1) ∧
     ([1, 0, 0, 128, 1, 0, 0, 0, 0, 0] : List Nat).length = 10) := by
  decide

/-- Helper: a `write_all` on a fixed 4096-byte cursor succeeds when the
data fits. -/
theorem cursorWriteAll_some (a b : List Nat)
    (h : a.length + b.length ≤ MAX_WRITEABLE_SIZE) :
    cursorWriteAll a b = some (a ++ b) := by
  unfold cursorWriteAll
  rw [if_pos h]

/-- The condition under which `transmit` attaches a reliable payload flag:
either the retransmit test (peer acked past the last reliable send while
the reliable toggles still differ) or a fresh absorption (non-empty
`message` with empty `reliable_buf`).  This mirrors the value of
`should_send_reliable` after step 1 of `transmit`. -/
def reliableAttach (st : NetChanVanilla) : Bool :=
  (decide (st.last_sent_reliable_sequence < st.incoming_acknowledged) &&
   (st.incoming_reliable_acknowledged != st.reliable_sequence)) ||
  (st.message.buf.length > 0 && st.reliable_buf.length == 0)

/-- The channel header that `transmit` writes: outgoing sequence with the
reliable flag in the high bit, incoming sequence with the reliable-receive
toggle echo in the high bit, then the `u16` qport on the client role. -/
def wireHeader (st : NetChanVanilla) (flag : Bool) : List Nat :=
  u32ToLE (st.outgoing_sequence % 2147483648 + (if flag then 2147483648 else 0)) ++
  u32ToLE (st.incoming_sequence % 2147483648 +
           (if st.incoming_reliable_sequence then 2147483648 else 0)) ++
  (if st.is_client then u16ToLE st.qport else [])

/-- Step 1's absorption condition: non-empty `message`, empty `reliable_buf`. -/
def absorbs (st : NetChanVanilla) : Bool :=
  st.message.buf.length > 0 && st.reliable_buf.length == 0

/-- The channel state after step 1 of `transmit` (absorbing `message` into
`reliable_buf` and flipping the sender toggle when `absorbs` holds). -/
def postAbsorb (st : NetChanVanilla) : NetChanVanilla :=
  if absorbs st then
    { st with message := MsgBuf.new, reliable_buf := st.message.buf,
              reliable_sequence := !st.reliable_sequence }
  else st

/-- Closed form of the packet built by a non-panicking `transmit`. -/
def transmitPacket (st : NetChanVanilla) (data : List Nat) : List Nat :=
  let pkt4 := wireHeader st (reliableAttach st) ++
              (if reliableAttach st then (postAbsorb st).reliable_buf else [])
  if MAX_WRITEABLE_SIZE - pkt4.length ≥ data.length && data.length > 0 then pkt4 ++ data
  else pkt4

/-- Closed form of the state left by a non-panicking `transmit`. -/
def transmitState (st : NetChanVanilla) : NetChanVanilla :=
  let stA := postAbsorb st
  let stB :=
    if reliableAttach st then { stA with last_sent_reliable_sequence := st.outgoing_sequence }
    else stA
  { stB with outgoing_sequence := (st.outgoing_sequence + 1) % 4294967296,
             is_reliable_ack_pending := false }

/-- When both buffers leave room for the role's header (10 bytes on the
client, 8 on the server), `transmit` does not panic and computes the
closed forms above. -/
theorem transmit_eq (st : NetChanVanilla) (data : List Nat)
    (hm : st.message.buf.length + (if st.is_client then 10 else 8) ≤ MAX_WRITEABLE_SIZE)
    (hr : st.reliable_buf.length + (if st.is_client then 10 else 8) ≤ MAX_WRITEABLE_SIZE) :
    st.transmit data = some (transmitState st, transmitPacket st data) := by
  unfold MAX_WRITEABLE_SIZE at hm hr
  by_cases hcl : st.is_client = true
  · rw [if_pos hcl] at hm hr
    have hm1 : st.message.buf.length ≤ 4096 := by omega
    have hm2 : 10 + st.message.buf.length ≤ 4096 := by omega
    have hr2 : 10 + st.reliable_buf.length ≤ 4096 := by omega
    by_cases habs : (st.message.buf.length > 0 && st.reliable_buf.length == 0) = true
    · have h := habs
      simp only [Bool.and_eq_true, beq_iff_eq, decide_eq_true_eq] at h
      have hrel : st.reliable_buf = [] := List.length_eq_zero.mp h.2
      have hmsgpos : 0 < st.message.buf.length := h.1
      simp [NetChanVanilla.transmit, transmitState, transmitPacket, postAbsorb, absorbs,
            reliableAttach, wireHeader, habs, hrel, hmsgpos, hcl, cursorWriteAll,
            MAX_WRITEABLE_SIZE, u32ToLE, u16ToLE, hm1, hm2, hr2]
    · by_cases hs : (decide (st.last_sent_reliable_sequence < st.incoming_acknowledged) &&
          (st.incoming_reliable_acknowledged != st.reliable_sequence)) = true <;>
      simp [NetChanVanilla.transmit, transmitState, transmitPacket, postAbsorb, absorbs,
            reliableAttach, wireHeader, habs, hs, hcl, cursorWriteAll, MAX_WRITEABLE_SIZE,
            u32ToLE, u16ToLE, hm1, hm2, hr2]
  · rw [if_neg hcl] at hm hr
    have hm1 : st.message.buf.length ≤ 4096 := by omega
    have hm3 : 8 + st.message.buf.length ≤ 4096 := by omega
    have hr3 : 8 + st.reliable_buf.length ≤ 4096 := by omega
    by_cases habs : (st.message.buf.length > 0 && st.reliable_buf.length == 0) = true
    · have h := habs
      simp only [Bool.and_eq_true, beq_iff_eq, decide_eq_true_eq] at h
      have hrel : st.reliable_buf = [] := List.length_eq_zero.mp h.2
      have hmsgpos : 0 < st.message.buf.length := h.1
      simp [NetChanVanilla.transmit, transmitState, transmitPacket, postAbsorb, absorbs,
            reliableAttach, wireHeader, habs, hrel, hmsgpos, hcl, cursorWriteAll,
            MAX_WRITEABLE_SIZE, u32ToLE, u16ToLE, hm1, hm3, hr3]
    · by_cases hs : (decide (st.last_sent_reliable_sequence < st.incoming_acknowledged) &&
          (st.incoming_reliable_acknowledged != st.reliable_sequence)) = true <;>
      simp [NetChanVanilla.transmit, transmitState, transmitPacket, postAbsorb, absorbs,
            reliableAttach, wireHeader, habs, hs, hcl, cursorWriteAll, MAX_WRITEABLE_SIZE,
            u32ToLE, u16ToLE, hm1, hm3, hr3]

/-- C1 amended: the retransmit decision tests only
`incoming_acknowledged > last_sent_reliable_sequence` and
`incoming_reliable_acknowledged ≠ reliable_sequence` — it does not require
`reliable_buf` to hold data, so the outgoing reliable flag can be set on a
packet with an empty reliable payload (see the counterexample).  The rest
of the original claim holds: while `reliable_buf` is non-empty the
`message` buffer is never absorbed and both buffers are left untouched,
the attach decision is exactly the two-condition retransmit test, and an
attached payload is the retained `reliable_buf` (or, when `reliable_buf`
was empty and `message` non-empty, the freshly absorbed `message`),
carried right after the header. -/
theorem c1_amended (st : NetChanVanilla) (data : List Nat)
    (hm : st.message.buf.length + 10 ≤ MAX_WRITEABLE_SIZE)
    (hr : st.reliable_buf.length + 10 ≤ MAX_WRITEABLE_SIZE) :
    ∃ st1 tail, st.transmit data = some (st1, wireHeader st (reliableAttach st) ++ tail) ∧
      (st.reliable_buf ≠ [] →
        st1.message = st.message ∧ st1.reliable_buf = st.reliable_buf ∧
        reliableAttach st =
          (decide (st.last_sent_reliable_sequence < st.incoming_acknowledged) &&
           (st.incoming_reliable_acknowledged != st.reliable_sequence)) ∧
        (reliableAttach st = true → ∃ d, tail = st.reliable_buf ++ d)) ∧
      (st.reliable_buf = [] → st.message.buf ≠ [] →
        reliableAttach st = true ∧ st1.reliable_buf = st.message.buf ∧
        st1.message.buf = [] ∧ ∃ d, tail = st.message.buf ++ d) := by
  have hmrole : st.message.buf.length + (if st.is_client then 10 else 8) ≤
      MAX_WRITEABLE_SIZE := by
    unfold MAX_WRITEABLE_SIZE at hm ⊢
    split <;> omega
  have hrrole : st.reliable_buf.length + (if st.is_client then 10 else 8) ≤
      MAX_WRITEABLE_SIZE := by
    unfold MAX_WRITEABLE_SIZE at hr ⊢
    split <;> omega
  have ht := transmit_eq st data hmrole hrrole
  have hpkt : ∃ d, transmitPacket st data =
      wireHeader st (reliableAttach st) ++
        ((if reliableAttach st then (postAbsorb st).reliable_buf else []) ++ d) := by
    unfold transmitPacket
    by_cases hatt : reliableAttach st = true
    · simp only [if_pos hatt]
      split
      · exact ⟨data, by simp [List.append_assoc]⟩
      · exact ⟨[], by simp⟩
    · simp only [if_neg hatt]
      split
      · exact ⟨data, by simp⟩
      · exact ⟨[], by simp⟩
  obtain ⟨d0, hpkt⟩ := hpkt
  refine ⟨transmitState st,
    (if reliableAttach st then (postAbsorb st).reliable_buf else []) ++ d0,
    by rw [ht, hpkt], ?_, ?_⟩
  · intro hne
    have habs : (st.message.buf.length > 0 && st.reliable_buf.length == 0) = false := by
      simp [List.length_eq_zero, hne]
    have hpa : postAbsorb st = st := by simp [postAbsorb, absorbs, habs]
    have hra : reliableAttach st =
        (decide (st.last_sent_reliable_sequence < st.incoming_acknowledged) &&
         (st.incoming_reliable_acknowledged != st.reliable_sequence)) := by
      simp [reliableAttach, habs]
    refine ⟨?_, ?_, hra, ?_⟩
    · simp only [transmitState, hpa]
      split <;> rfl
    · simp only [transmitState, hpa]
      split <;> rfl
    · intro hatt
      exact ⟨d0, by rw [hatt, hpa, if_pos rfl]⟩
  · intro hrel hmsg
    have habs : (st.message.buf.length > 0 && st.reliable_buf.length == 0) = true := by
      simp [hrel, List.length_pos, hmsg]
    have hpa : (postAbsorb st).reliable_buf = st.message.buf := by
      simp [postAbsorb, absorbs, habs]
    have hatt : reliableAttach st = true := by
      simp [reliableAttach, habs]
    refine ⟨hatt, ?_, ?_, ⟨d0, by rw [hatt, if_pos rfl, hpa]⟩⟩
    · simp only [transmitState]
      split <;> simp [postAbsorb, absorbs, habs]
    · simp only [transmitState]
      split <;> simp [postAbsorb, absorbs, habs, MsgBuf.new]

/-- Witness for C1 amended at the fresh client channel with empty payload:
the hypotheses hold by computation and a packet is produced, led by the
wire header. -/
theorem c1_amended_witness :
    ∃ st1 tail, (NetChanVanilla.new true 0).transmit [] =
      some (st1, wireHeader (NetChanVanilla.new true 0)
        (reliableAttach (NetChanVanilla.new true 0)) ++ tail) := by
  obtain ⟨st1, tail, h1, _, _⟩ :=
    c1_amended (NetChanVanilla.new true 0) [] (by decide) (by decide)
  exact ⟨st1, tail, h1⟩

/-- C10 amended: with `reliable_buf` empty, `transmit` is total when the
`message` buffer leaves room for the role's header (10 bytes client, 8
server) in the 4096-byte scratch packet; and when `message` holds more
than 4096 bytes the `unwrap`ed copy into the fixed 4096-byte
`reliable_buf` fails, i.e. `transmit` panics.  (For message sizes in
between, the copy into `reliable_buf` succeeds but the packet write
panics — see the counterexample.) -/
theorem c10_amended (st : NetChanVanilla) (data : List Nat)
    (hrel : st.reliable_buf = []) :
    (st.message.buf.length + (if st.is_client then 10 else 8) ≤ MAX_WRITEABLE_SIZE →
      (st.transmit data).isSome = true) ∧
    (MAX_WRITEABLE_SIZE < st.message.buf.length → st.transmit data = none) := by
  constructor
  · intro hm
    have hr : st.reliable_buf.length + (if st.is_client then 10 else 8) ≤
        MAX_WRITEABLE_SIZE := by
      rw [hrel]
      unfold MAX_WRITEABLE_SIZE
      split <;> simp
    rw [transmit_eq st data hm hr]
    rfl
  · intro hbig
    have hbig4 : 4096 < st.message.buf.length := hbig
    have habs : (st.message.buf.length > 0 && st.reliable_buf.length == 0) = true := by
      simp [hrel]
      omega
    have hc : ¬(st.reliable_buf.length + st.message.buf.length ≤ MAX_WRITEABLE_SIZE) := by
      rw [hrel]
      unfold MAX_WRITEABLE_SIZE
      simp
      omega
    simp [NetChanVanilla.transmit, habs, cursorWriteAll, hc]

/-- Witness for C10 amended at the fresh client channel: the fresh
channel's empty message buffer fits, so `transmit` succeeds. -/
theorem c10_amended_witness :
    (((NetChanVanilla.new true 0).transmit []).isSome = true) :=
  (c10_amended (NetChanVanilla.new true 0) [] (by decide)).1 (by decide)

/-- On the client role with `reliable_buf` empty, a `message` payload that
fits the reliable buffer but not behind the 10-byte header makes the
`unwrap`ed packet `write_all` fail: `transmit` panics. -/
theorem transmit_packet_overflow (st : NetChanVanilla) (data : List Nat)
    (hcl : st.is_client = true) (hrel : st.reliable_buf = [])
    (h1 : st.message.buf.length ≤ 4096) (h2 : 4086 < st.message.buf.length) :
    st.transmit data = none := by
  have hc2 : ¬(10 + st.message.buf.length ≤ 4096) := by omega
  have hmsgpos : 0 < st.message.buf.length := by omega
  have hne : st.message.buf ≠ [] := by
    intro h
    rw [h] at h2
    simp at h2
  simp [NetChanVanilla.transmit, hrel, hcl, cursorWriteAll, MAX_WRITEABLE_SIZE,
        u32ToLE, u16ToLE, h1, hc2, hmsgpos, hne]

/-- Counterexample to C10 as stated: a client channel whose `message`
buffer holds exactly 4096 bytes (so `≤ 4096`, with `reliable_buf` empty)
still panics in `transmit` — the copy into `reliable_buf` succeeds, but
the 10-byte header plus the 4096-byte reliable payload overflow the fixed
4096-byte scratch packet, and that `write_all` is also `unwrap`ed. -/
theorem c10_counterexample :
    (({ NetChanVanilla.new true 0 with
        message := { buf := List.replicate 4096 1 } } : NetChanVanilla).message.buf.length
          ≤ 4096 ∧
     ({ NetChanVanilla.new true 0 with
        message := { buf := List.replicate 4096 1 } } : NetChanVanilla).reliable_buf = []) ∧
    ({ NetChanVanilla.new true 0 with
        message := { buf := List.replicate 4096 1 } } : NetChanVanilla).transmit [] =
      none := by
  have hlen : ({ NetChanVanilla.new true 0 with
      message := { buf := List.replicate 4096 1 } } : NetChanVanilla).message.buf.length =
        4096 := by
    show (List.replicate 4096 1).length = 4096
    exact List.length_replicate 4096 1
  refine ⟨⟨by rw [hlen], rfl⟩, ?_⟩
  exact transmit_packet_overflow _ [] rfl rfl (by rw [hlen])
    (by rw [hlen]; norm_num)

/-! ## MsgBuf claims (src/proto/msg_buf.rs) -/

/-- C7: `write_string` rejects exactly the strings longer than
`MAX_NET_STRING` (2048) bytes, emitting a single `0` byte before failing;
any other string is appended followed by one NUL terminator, and the call
succeeds. -/
theorem c7_write_string (m : MsgBuf) (s : List Nat) :
    ((m.write_string s).2 = false ↔ MAX_NET_STRING < s.length) ∧
    (MAX_NET_STRING < s.length → (m.write_string s).1.buf = m.buf ++ [0]) ∧
    (s.length ≤ MAX_NET_STRING →
      (m.write_string s).1.buf = m.buf ++ s ++ [0] ∧ (m.write_string s).2 = true) := by
  unfold MsgBuf.write_string MsgBuf.writeU8 MsgBuf.writeAll
  by_cases h : MAX_NET_STRING < s.length
  · simp [if_pos h, h]
  · simp only [gt_iff_lt, if_neg h]
    simp [h]

/-- Witness for C7 at a concrete one-byte string. -/
theorem c7_witness :
    (MsgBuf.new.write_string [97]).1.buf = MsgBuf.new.buf ++ [97] ++ [0] ∧
    (MsgBuf.new.write_string [97]).2 = true :=
  (c7_write_string MsgBuf.new [97]).2.2 (by decide)

/-- A sequence of `write_all` operations on the fixed 4096-byte cursor
(`reliable_buf` is written exactly this way), starting from empty. -/
def relWrites (ops : List (List Nat)) : Option (List Nat) :=
  List.foldlM (fun buf bytes => cursorWriteAll buf bytes) [] ops

/-- Any successful sequence of writes on the fixed cursor stays within
bounds, from any in-bounds starting prefix. -/
theorem relWrites_go_bounded (ops : List (List Nat)) :
    ∀ acc : List Nat, acc.length ≤ MAX_WRITEABLE_SIZE →
      ∀ buf, List.foldlM (fun b bytes => cursorWriteAll b bytes) acc ops = some buf →
        buf.length ≤ MAX_WRITEABLE_SIZE := by
  induction ops with
  | nil =>
    intro acc hacc buf h
    simp only [List.foldlM_nil, Option.pure_def, Option.some.injEq] at h
    exact h ▸ hacc
  | cons b ops ih =>
    intro acc hacc buf h
    rw [List.foldlM_cons] at h
    rcases hcw : cursorWriteAll acc b with _ | acc2
    · rw [hcw] at h
      simp at h
    · rw [hcw] at h
      simp only [Option.bind_eq_bind, Option.some_bind] at h
      have hlen : acc2.length ≤ MAX_WRITEABLE_SIZE := by
        unfold cursorWriteAll at hcw
        split at hcw
        · cases hcw
          simpa
        · cases hcw
      exact ih acc2 hlen buf h

/-- C5 amended: the fixed 4096-byte cursor behind `reliable_buf` never
exceeds its capacity — any successful write sequence ends within 4096
bytes, and a write that would exceed the capacity fails.  The channel's
`message` buffer, however, is a growable `Vec` (4096 is only the initial
capacity of `Vec::with_capacity`), so its writes succeed regardless of the
bytes already held (see the counterexample for an overflowing success). -/
theorem c5_amended :
    (∀ ops buf, relWrites ops = some buf → buf.length ≤ MAX_WRITEABLE_SIZE) ∧
    (∀ buf bytes : List Nat, MAX_WRITEABLE_SIZE < buf.length + bytes.length →
      cursorWriteAll buf bytes = none) ∧
    (∀ (m : MsgBuf) (s : List Nat), s.length ≤ MAX_NET_STRING →
      (m.write_string s).2 = true) := by
  refine ⟨?_, ?_, ?_⟩
  · intro ops buf h
    exact relWrites_go_bounded ops [] (by simp) buf h
  · intro buf bytes h
    unfold cursorWriteAll
    rw [if_neg (by omega)]
  · intro m s h
    unfold MsgBuf.write_string
    rw [if_neg (by omega)]

/-- Witness for C5 amended: a concrete overfull write on the fixed cursor
fails. -/
theorem c5_amended_witness :
    cursorWriteAll (List.replicate 4000 0) (List.replicate 97 1) = none :=
  (c5_amended).2.1 (List.replicate 4000 0) (List.replicate 97 1)
    (by rw [List.length_replicate, List.length_replicate]; decide)

/-- A fitting `write_string` appends the string and its NUL terminator. -/
theorem write_string_ok (m : MsgBuf) (s : List Nat) (h : s.length ≤ MAX_NET_STRING) :
    m.write_string s = ({ buf := m.buf ++ s ++ [0] }, true) := by
  unfold MsgBuf.write_string MsgBuf.writeAll MsgBuf.writeU8
  rw [if_neg (by omega)]

/-- Counterexample to C5 as stated: two successful 2048-byte
`write_string` calls into the `message` `MsgBuf` leave 4098 > 4096
written bytes — the `Vec`-backed buffer grows past the claimed fixed
capacity, and neither write fails. -/
theorem c5_counterexample :
    (MsgBuf.new.write_string (List.replicate 2048 97)).2 = true ∧
    ((MsgBuf.new.write_string (List.replicate 2048 97)).1.write_string
        (List.replicate 2048 97)).2 = true ∧
    ((MsgBuf.new.write_string (List.replicate 2048 97)).1.write_string
        (List.replicate 2048 97)).1.buf.length = 4098 := by
  have h1 : (List.replicate 2048 97).length = 2048 := List.length_replicate 2048 97
  have hle : (List.replicate 2048 97).length ≤ MAX_NET_STRING := by rw [h1]; decide
  have e1 := write_string_ok MsgBuf.new (List.replicate 2048 97) hle
  have e2 := write_string_ok
      ({ buf := MsgBuf.new.buf ++ List.replicate 2048 97 ++ [0] } : MsgBuf)
      (List.replicate 2048 97) hle
  refine ⟨by rw [e1], ?_, ?_⟩
  · rw [e1]
    dsimp only
    rw [e2]
  · rw [e1]
    dsimp only
    rw [e2]
    dsimp only
    simp only [List.length_append, h1, List.length_cons, List.length_nil,
               show MsgBuf.new.buf = ([] : List Nat) from rfl]

/-! ## Entity delta decoding (src/objects.rs)

`EntityStateBits` are the masks `1 << k`; we keep the bit positions and
test them with `hasBit`, which is `bits & (1 << k) != 0` on a `u32`. -/

def U_ORIGIN1 : Nat := 0
def U_ORIGIN2 : Nat := 1
def U_ANGLE2 : Nat := 2
def U_ANGLE3 : Nat := 3
def U_FRAME8 : Nat := 4
def U_EVENT : Nat := 5
def U_REMOVE : Nat := 6
def U_MOREBITS1 : Nat := 7
def U_NUMBER16 : Nat := 8
def U_ORIGIN3 : Nat := 9
def U_ANGLE1 : Nat := 10
def U_MODEL : Nat := 11
def U_RENDERFX8 : Nat := 12
def U_ANGLE16 : Nat := 13
def U_EFFECTS8 : Nat := 14
def U_MOREBITS2 : Nat := 15
def U_SKIN8 : Nat := 16
def U_FRAME16 : Nat := 17
def U_RENDERFX16 : Nat := 18
def U_EFFECTS16 : Nat := 19
def U_MODEL2 : Nat := 20
def U_MODEL3 : Nat := 21
def U_MODEL4 : Nat := 22
def U_MOREBITS3 : Nat := 23
def U_OLDORIGIN : Nat := 24
def U_SKIN16 : Nat := 25
def U_SOUND : Nat := 26
def U_SOLID : Nat := 27

/-- `bits & (1 << k) != 0` on a `u32`. -/
def hasBit (bits k : Nat) : Bool := bits / 2 ^ k % 2 = 1

/-- `parse_entity_bits`: 1–4 header bytes accumulated (`total |= b << 8`
is addition, the ranges being disjoint), then an entity number as `i16`
(NUMBER16) or sign-extended `i8`. -/
def parse_entity_bits (c : RCursor) : Option ((Int × Nat) × RCursor) := do
  let (t0, c1) ← readU8 c
  let (t1, c2) ←
    if hasBit t0 U_MOREBITS1 then do
      let (b, c') ← readU8 c1
      pure (t0 + b * 256, c')
    else pure (t0, c1)
  let (t2, c3) ←
    if hasBit t1 U_MOREBITS2 then do
      let (b, c') ← readU8 c2
      pure (t1 + b * 65536, c')
    else pure (t1, c2)
  let (t3, c4) ←
    if hasBit t2 U_MOREBITS3 then do
      let (b, c') ← readU8 c3
      pure (t2 + b * 16777216, c')
    else pure (t2, c3)
  let (number, c5) ← if hasBit t3 U_NUMBER16 then readI16le c4 else readI8 c4
  pure ((number, t3), c5)

/-- `DeltaEntity`.  Coordinates and angles are kept as the raw wire
integers: the source stores `raw_u16 / 8.0` resp. `raw_u8 * 360.0 / 256.0`
as `f32`, both exact functions of the raw value. -/
structure DeltaEntity where
  number : Int
  model_index : Option Nat
  model_index2 : Option Nat
  model_index3 : Option Nat
  model_index4 : Option Nat
  frame : Option Int
  skin : Option Nat
  effects : Option Nat
  render_fx : Option Nat
  origin0 : Option Nat
  origin1 : Option Nat
  origin2 : Option Nat
  angle0 : Option Nat
  angle1 : Option Nat
  angle2 : Option Nat
  old_origin0 : Option Nat
  old_origin1 : Option Nat
  old_origin2 : Option Nat
  sound : Option Nat
  event : Nat
  solid : Option Nat
deriving DecidableEq

/-- A `Some(cur.read_u8().ok()?)` field gated by one bit. -/
def parseByteField (bits k : Nat) (c : RCursor) : Option (Option Nat × RCursor) :=
  if hasBit bits k then (readU8 c).map (fun p => (some p.1, p.2)) else some (none, c)

/-- The frame field: both FRAME8 and FRAME16 set → read and discard a
byte, then read the frame as a little-endian `i16`; FRAME8 alone → one
byte; FRAME16 alone → an `i16`; else absent. -/
def parseFrameField (bits : Nat) (c : RCursor) : Option (Option Int × RCursor) :=
  if hasBit bits U_FRAME8 && hasBit bits U_FRAME16 then do
    let (_, c1) ← readU8 c
    let (v, c2) ← readI16le c1
    pure (some v, c2)
  else if hasBit bits U_FRAME8 then do
    let (v, c1) ← readU8 c
    pure (some (v : Int), c1)
  else if hasBit bits U_FRAME16 then do
    let (v, c1) ← readI16le c
    pure (some v, c1)
  else pure (none, c)

/-- The skin/effects/render-fx pattern: `bits & (b8|b16) == (b8|b16)` (the
"laser" combination) reads a little-endian `u32`; else the 8-bit flag
reads a byte; else the 16-bit flag reads a little-endian `u16`. -/
def parseWideField (bits k8 k16 : Nat) (c : RCursor) : Option (Option Nat × RCursor) :=
  if hasBit bits k8 && hasBit bits k16 then do
    let (v, c1) ← readU32le c
    pure (some v, c1)
  else if hasBit bits k8 then do
    let (v, c1) ← readU8 c
    pure (some v, c1)
  else if hasBit bits k16 then do
    let (v, c1) ← readU16le c
    pure (some v, c1)
  else pure (none, c)

/-- `parse_coord` gated by one bit (raw `u16` kept, f32 is `raw / 8.0`). -/
def parseCoordField (bits k : Nat) (c : RCursor) : Option (Option Nat × RCursor) :=
  if hasBit bits k then (readU16le c).map (fun p => (some p.1, p.2)) else some (none, c)

/-- `parse_angle` gated by one bit (raw `u8` kept, f32 is
`raw * 360.0 / 256.0`). -/
def parseAngleField (bits k : Nat) (c : RCursor) : Option (Option Nat × RCursor) :=
  if hasBit bits k then (readU8 c).map (fun p => (some p.1, p.2)) else some (none, c)

/-- The sound field uses `.ok()` without `?`: a failed read yields `None`
for the field and decoding continues. -/
def parseSoundField (bits : Nat) (c : RCursor) : Option Nat × RCursor :=
  if hasBit bits U_SOUND then
    match readU8 c with
    | some (v, c1) => (some v, c1)
    | none => (none, c)
  else (none, c)

/-- The event field: one byte when EVENT is set, else the default 0. -/
def parseEventField (bits : Nat) (c : RCursor) : Option (Nat × RCursor) :=
  if hasBit bits U_EVENT then readU8 c else some (0, c)

/-- The solid field: a `u16` (widened) when SOLID is set. -/
def parseSolidField (bits : Nat) (c : RCursor) : Option (Option Nat × RCursor) :=
  if hasBit bits U_SOLID then (readU16le c).map (fun p => (some p.1, p.2)) else some (none, c)

/-- The first stage of `parse_delta_entity`'s struct literal, in source
order: the four model indices, frame, skin, effects, render-fx. -/
def parse_delta_visual (bits : Nat) (c : RCursor) :
    Option ((Option Nat × Option Nat × Option Nat × Option Nat × Option Int ×
             Option Nat × Option Nat × Option Nat) × RCursor) := do
  let r1 ← parseByteField bits U_MODEL c
  let r2 ← parseByteField bits U_MODEL2 r1.2
  let r3 ← parseByteField bits U_MODEL3 r2.2
  let r4 ← parseByteField bits U_MODEL4 r3.2
  let r5 ← parseFrameField bits r4.2
  let r6 ← parseWideField bits U_SKIN8 U_SKIN16 r5.2
  let r7 ← parseWideField bits U_EFFECTS8 U_EFFECTS16 r6.2
  let r8 ← parseWideField bits U_RENDERFX8 U_RENDERFX16 r7.2
  pure ((r1.1, r2.1, r3.1, r4.1, r5.1, r6.1, r7.1, r8.1), r8.2)

/-- The second stage of `parse_delta_entity`'s struct literal, in source
order: origin xyz, angles, old-origin xyz (all three gated by OLDORIGIN). -/
def parse_delta_placement (bits : Nat) (c : RCursor) :
    Option ((Option Nat × Option Nat × Option Nat × Option Nat × Option Nat ×
             Option Nat × Option Nat × Option Nat × Option Nat) × RCursor) := do
  let r9 ← parseCoordField bits U_ORIGIN1 c
  let r10 ← parseCoordField bits U_ORIGIN2 r9.2
  let r11 ← parseCoordField bits U_ORIGIN3 r10.2
  let r12 ← parseAngleField bits U_ANGLE1 r11.2
  let r13 ← parseAngleField bits U_ANGLE2 r12.2
  let r14 ← parseAngleField bits U_ANGLE3 r13.2
  let r15 ← parseCoordField bits U_OLDORIGIN r14.2
  let r16 ← parseCoordField bits U_OLDORIGIN r15.2
  let r17 ← parseCoordField bits U_OLDORIGIN r16.2
  pure ((r9.1, r10.1, r11.1, r12.1, r13.1, r14.1, r15.1, r16.1, r17.1), r17.2)

/-- `parse_delta_entity`: the struct-literal fields evaluate in source
order, threading the cursor (staged through the two helpers above). -/
def parse_delta_entity (entnum : Int) (bits : Nat) (c : RCursor) :
    Option (DeltaEntity × RCursor) := do
  let v ← parse_delta_visual bits c
  let p ← parse_delta_placement bits v.2
  let r18 := parseSoundField bits p.2
  let r19 ← parseEventField bits r18.2
  let r20 ← parseSolidField bits r19.2
  pure
    ({ number := entnum, model_index := v.1.1, model_index2 := v.1.2.1,
       model_index3 := v.1.2.2.1, model_index4 := v.1.2.2.2.1, frame := v.1.2.2.2.2.1,
       skin := v.1.2.2.2.2.2.1, effects := v.1.2.2.2.2.2.2.1,
       render_fx := v.1.2.2.2.2.2.2.2, origin0 := p.1.1, origin1 := p.1.2.1,
       origin2 := p.1.2.2.1, angle0 := p.1.2.2.2.1, angle1 := p.1.2.2.2.2.1,
       angle2 := p.1.2.2.2.2.2.1, old_origin0 := p.1.2.2.2.2.2.2.1,
       old_origin1 := p.1.2.2.2.2.2.2.2.1, old_origin2 := p.1.2.2.2.2.2.2.2.2,
       sound := r18.1, event := r19.1, solid := r20.1 },
     r20.2)

/-- `parse_baseline`: entity bits header, then the delta fields. -/
def parse_baseline (c : RCursor) : Option (DeltaEntity × RCursor) := do
  let ((number, bits), c1) ← parse_entity_bits c
  parse_delta_entity number bits c1

/-- C6: with both FRAME8 and FRAME16 set, the frame field consumes
exactly 3 bytes — one byte read and discarded, then a little-endian `i16`
which becomes the frame — succeeding whenever 3 bytes remain; with both
SKIN8 and SKIN16 set, the skin field consumes exactly 4 bytes read as a
little-endian `u32`, succeeding whenever 4 bytes remain. -/
theorem c6_frame_skin_laser :
    (∀ (bits : Nat) (c : RCursor),
      hasBit bits U_FRAME8 = true → hasBit bits U_FRAME16 = true →
      (c.pos + 3 ≤ c.data.length → (parseFrameField bits c).isSome = true) ∧
      (∀ r c', parseFrameField bits c = some (r, c') →
        c'.data = c.data ∧ c'.pos = c.pos + 3 ∧
        ∃ b0 b1, c.data[c.pos + 1]? = some b0 ∧
          c.data[c.pos + 2]? = some b1 ∧
          r = some (toI16 (b0 % 256 + 256 * (b1 % 256))))) ∧
    (∀ (bits : Nat) (c : RCursor),
      hasBit bits U_SKIN8 = true → hasBit bits U_SKIN16 = true →
      (c.pos + 4 ≤ c.data.length → (parseWideField bits U_SKIN8 U_SKIN16 c).isSome = true) ∧
      (∀ r c', parseWideField bits U_SKIN8 U_SKIN16 c = some (r, c') →
        c'.data = c.data ∧ c'.pos = c.pos + 4 ∧
        ∃ b0 b1 b2 b3, c.data[c.pos]? = some b0 ∧
          c.data[c.pos + 1]? = some b1 ∧
          c.data[c.pos + 2]? = some b2 ∧
          c.data[c.pos + 3]? = some b3 ∧
          r = some (b0 % 256 + 256 * (b1 % 256) + 65536 * (b2 % 256) +
                    16777216 * (b3 % 256)))) := by
  constructor
  · intro bits c h8 h16
    have hcond : (hasBit bits U_FRAME8 && hasBit bits U_FRAME16) = true := by
      rw [h8, h16]
      rfl
    rcases hb0 : c.data[c.pos]? with _ | b0
    · have hl0 := List.getElem?_eq_none_iff.mp hb0
      refine ⟨fun hlen => by omega, fun r c' hps => ?_⟩
      simp [parseFrameField, hcond, readU8, readI16le, readU16le, hb0] at hps
    · rcases hb1 : c.data[c.pos + 1]? with _ | b1
      · have hl1 := List.getElem?_eq_none_iff.mp hb1
        refine ⟨fun hlen => by omega, fun r c' hps => ?_⟩
        simp [parseFrameField, hcond, readU8, readI16le, readU16le, hb0, hb1] at hps
      · rcases hb2 : c.data[c.pos + 2]? with _ | b2
        · have hl2 := List.getElem?_eq_none_iff.mp hb2
          refine ⟨fun hlen => by omega, fun r c' hps => ?_⟩
          simp [parseFrameField, hcond, readU8, readI16le, readU16le, hb0, hb1, hb2]
            at hps
        · have hp3 : c.pos + 1 + 1 + 1 = c.pos + 3 := by omega
          have heval : parseFrameField bits c =
              some (some (toI16 (b1 % 256 + 256 * (b2 % 256))),
                    { data := c.data, pos := c.pos + 3 }) := by
            simp [parseFrameField, hcond, readU8, readI16le, readU16le, hb0, hb1,
                  hb2, hp3]
          refine ⟨fun _ => by rw [heval]; rfl, fun r c' hps => ?_⟩
          rw [heval] at hps
          simp only [Option.some.injEq, Prod.mk.injEq] at hps
          obtain ⟨hr, hc⟩ := hps
          subst hc
          exact ⟨rfl, rfl, b1, b2, rfl, rfl, hr.symm⟩
  · intro bits c h8 h16
    have hcond : (hasBit bits U_SKIN8 && hasBit bits U_SKIN16) = true := by
      rw [h8, h16]
      rfl
    rcases hb0 : c.data[c.pos]? with _ | b0
    · have hl0 := List.getElem?_eq_none_iff.mp hb0
      refine ⟨fun hlen => by omega, fun r c' hps => ?_⟩
      simp [parseWideField, hcond, readU32le, readU8, hb0] at hps
    · rcases hb1 : c.data[c.pos + 1]? with _ | b1
      · have hl1 := List.getElem?_eq_none_iff.mp hb1
        refine ⟨fun hlen => by omega, fun r c' hps => ?_⟩
        simp [parseWideField, hcond, readU32le, readU8, hb0, hb1] at hps
      · rcases hb2 : c.data[c.pos + 2]? with _ | b2
        · have hl2 := List.getElem?_eq_none_iff.mp hb2
          refine ⟨fun hlen => by omega, fun r c' hps => ?_⟩
          simp [parseWideField, hcond, readU32le, readU8, hb0, hb1, hb2] at hps
        · rcases hb3 : c.data[c.pos + 3]? with _ | b3
          · have hl3 := List.getElem?_eq_none_iff.mp hb3
            refine ⟨fun hlen => by omega, fun r c' hps => ?_⟩
            simp [parseWideField, hcond, readU32le, readU8, hb0, hb1, hb2, hb3] at hps
          · have hp4 : c.pos + 1 + 1 + 1 + 1 = c.pos + 4 := by omega
            have heval : parseWideField bits U_SKIN8 U_SKIN16 c =
                some (some (b0 % 256 + 256 * (b1 % 256) + 65536 * (b2 % 256) +
                            16777216 * (b3 % 256)),
                      { data := c.data, pos := c.pos + 4 }) := by
              simp [parseWideField, hcond, readU32le, readU8, hb0, hb1, hb2, hb3, hp4]
            refine ⟨fun _ => by rw [heval]; rfl, fun r c' hps => ?_⟩
            rw [heval] at hps
            simp only [Option.some.injEq, Prod.mk.injEq] at hps
            obtain ⟨hr, hc⟩ := hps
            subst hc
            exact ⟨rfl, rfl, b0, b1, b2, b3, rfl, rfl, rfl, rfl, hr.symm⟩

/-- Witness for C6 at a concrete bit mask and byte stream: both edge
combinations decode from explicit bytes. -/
theorem c6_witness :
    ((parseFrameField (2 ^ U_FRAME8 + 2 ^ U_FRAME16) ⟨[9, 1, 2, 7], 0⟩).isSome = true) ∧
    ((parseWideField (2 ^ U_SKIN8 + 2 ^ U_SKIN16) U_SKIN8 U_SKIN16
        ⟨[1, 2, 3, 4], 0⟩).isSome = true) :=
  ⟨((c6_frame_skin_laser).1 (2 ^ U_FRAME8 + 2 ^ U_FRAME16) ⟨[9, 1, 2, 7], 0⟩
      (by decide) (by decide)).1 (by decide),
   ((c6_frame_skin_laser).2 (2 ^ U_SKIN8 + 2 ^ U_SKIN16) ⟨[1, 2, 3, 4], 0⟩
      (by decide) (by decide)).1 (by decide)⟩

/-! ## Challenge parsing (src/lib.rs, `Q2ProtoClient::challenge`) -/

/-- The bytes of the literal `challenge`. -/
def challengeLit : List Nat := [99, 104, 97, 108, 108, 101, 110, 103, 101]

/-- The token handling of `challenge` after the OOB receive: split the
payload text on spaces; the first token must be `challenge`; the second
(`next()?`) is the challenge value; the third (`next()?`) must start with
`p=` and yields the protocols string after that prefix.  A missing token
or failed check returns `none`. -/
def challengeParse (s : List Nat) : Option (List Nat × List Nat) :=
  match splitOnByte 32 s with
  | [] => none
  | t0 :: rest =>
    if t0 = challengeLit then
      match rest with
      | [] => none
      | v :: rest2 =>
        match rest2 with
        | [] => none
        | p :: _ =>
          if List.isPrefixOf [112, 61] p then some (v, p.drop 2) else none
    else none

/-- Counterexample to C4 as stated: parsing the exact payload text
`challenge 12345 p=34,35,36\n` succeeds, but the protocols string keeps
the trailing newline — the third token is `p=34,35,36\n`, nothing strips
the `\n`, so the result is `34,35,36\n` (bytes ending in 10), not
`34,35,36`. -/
theorem c4_counterexample :
    (challengeParse [99, 104, 97, 108, 108, 101, 110, 103, 101, 32, 49, 50, 51, 52, 53,
        32, 112, 61, 51, 52, 44, 51, 53, 44, 51, 54, 10]).map (fun p => p.2) =
      some [51, 52, 44, 51, 53, 44, 51, 54, 10] ∧
    some [51, 52, 44, 51, 53, 44, 51, 54, 10] ≠
      some ([51, 52, 44, 51, 53, 44, 51, 54] : List Nat) := by
  decide

/-- C4 amended: the payload `challenge 12345 p=34,35,36\n` parses to the
value `12345` and the protocols string `34,35,36\n` (the remainder of the
third token after `p=`, trailing newline included); any payload whose
first space-separated token is not `challenge`, or without a third token
starting with `p=`, fails to parse. -/
theorem c4_amended :
    challengeParse [99, 104, 97, 108, 108, 101, 110, 103, 101, 32, 49, 50, 51, 52, 53,
        32, 112, 61, 51, 52, 44, 51, 53, 44, 51, 54, 10] =
      some ([49, 50, 51, 52, 53], [51, 52, 44, 51, 53, 44, 51, 54, 10]) ∧
    (∀ s : List Nat, (splitOnByte 32 s).head? ≠ some challengeLit →
      challengeParse s = none) ∧
    (∀ s : List Nat,
      ((splitOnByte 32 s)[2]?).map (fun p => List.isPrefixOf [112, 61] p) ≠ some true →
      challengeParse s = none) := by
  refine ⟨by decide, ?_, ?_⟩
  · intro s h
    unfold challengeParse
    rcases hsp : splitOnByte 32 s with _ | ⟨t0, rest⟩
    · rfl
    · rw [hsp] at h
      simp only [List.head?_cons, ne_eq, Option.some.injEq] at h
      dsimp only
      rw [if_neg h]
  · intro s h
    unfold challengeParse
    rcases hsp : splitOnByte 32 s with _ | ⟨t0, rest⟩
    · rfl
    · rw [hsp] at h
      dsimp only
      by_cases ht0 : t0 = challengeLit
      · rw [if_pos ht0]
        rcases rest with _ | ⟨v, rest2⟩
        · rfl
        · dsimp only
          rcases rest2 with _ | ⟨p, rest3⟩
          · rfl
          · dsimp only
            simp at h
            rw [if_neg (by simp [h])]
      · rw [if_neg ht0]

/-- Witness for C4 amended: a payload whose first token is `hi` is
rejected. -/
theorem c4_witness : challengeParse [104, 105] = none :=
  (c4_amended).2.1 [104, 105] (by decide)

/-! ## UserInfo (src/user_info.rs)

The `HashMap<String, String>` is modelled as an association list with
pairwise-distinct keys; `as_string` iterates in an arbitrary hash order,
covered by quantifying over every listing of the map.  Strings are byte
lists: splitting on the backslash byte 92 is byte-exact in UTF-8. -/

/-- `UserInfo::as_string`: `format!("\\{key}\\{val}")` per pair, joined. -/
def UserInfo.as_string (l : List (List Nat × List Nat)) : List Nat :=
  (l.map (fun p => [92] ++ p.1 ++ [92] ++ p.2)).flatten

/-- `HashMap::insert`: replace the value under an existing key, else
append the pair. -/
def insertKV (acc : List (List Nat × List Nat)) (k v : List Nat) :
    List (List Nat × List Nat) :=
  if acc.any (fun p => p.1 = k) then acc.map (fun p => if p.1 = k then (k, v) else p)
  else acc ++ [(k, v)]

/-- The loop `for n in 0..len/2 { insert(spl_vec[2n], spl_vec[2n+1]) }`
pairs consecutive chunks, dropping a trailing odd chunk. -/
def pairUp : List (List Nat) → List (List Nat × List Nat)
  | a :: b :: t => (a, b) :: pairUp t
  | _ => []

/-- `UserInfo::from_string`: a string not starting with a backslash (or
empty) parses to the empty map; otherwise split on `\\`, skip the leading
empty chunk, and insert the chunk pairs in order. -/
def UserInfo.from_string (s : List Nat) : List (List Nat × List Nat) :=
  if s.head? = some 92 then
    (pairUp ((splitOnByte 92 s).drop 1)).foldl (fun acc p => insertKV acc p.1 p.2) []
  else []

/-- One unfolding step of `splitOnByte` on a cons cell. -/
theorem splitOnByte_cons (sep b : Nat) (t : List Nat) :
    splitOnByte sep (b :: t) =
      if b = sep then [] :: splitOnByte sep t
      else
        match splitOnByte sep t with
        | h :: tl => (b :: h) :: tl
        | [] => [[b]] := by
  rw [splitOnByte]

/-- Splitting a separator-free string yields it as the single chunk. -/
theorem splitOnByte_nosep (sep : Nat) (xs : List Nat) (h : ∀ b ∈ xs, b ≠ sep) :
    splitOnByte sep xs = [xs] := by
  induction xs with
  | nil => rfl
  | cons x t ih =>
    have hx : x ≠ sep := h x (by simp)
    rw [splitOnByte_cons, if_neg hx, ih (fun b hb => h b (by simp [hb]))]

/-- Splitting a string whose separator-free prefix is followed by one
separator peels off the prefix as the first chunk. -/
theorem splitOnByte_append (sep : Nat) (xs ys : List Nat) (h : ∀ b ∈ xs, b ≠ sep) :
    splitOnByte sep (xs ++ sep :: ys) = xs :: splitOnByte sep ys := by
  induction xs with
  | nil =>
    show splitOnByte sep (sep :: ys) = [] :: splitOnByte sep ys
    rw [splitOnByte_cons, if_pos rfl]
  | cons x t ih =>
    have hx : x ≠ sep := h x (by simp)
    show splitOnByte sep (x :: (t ++ sep :: ys)) = (x :: t) :: splitOnByte sep ys
    rw [splitOnByte_cons, if_neg hx, ih (fun b hb => h b (by simp [hb]))]

/-- The chunk list of a formatted userinfo string: each key and value in
turn. -/
def flatPairs (l : List (List Nat × List Nat)) : List (List Nat) :=
  (l.map (fun p => [p.1, p.2])).flatten

/-- Splitting any separator-free prefix followed by a formatted userinfo
string gives the prefix and then the alternating keys and values. -/
theorem splitOnByte_acc_as_string (l : List (List Nat × List Nat))
    (hnb : ∀ p ∈ l, (∀ b ∈ p.1, b ≠ 92) ∧ (∀ b ∈ p.2, b ≠ 92)) :
    ∀ acc : List Nat, (∀ b ∈ acc, b ≠ 92) →
      splitOnByte 92 (acc ++ UserInfo.as_string l) = acc :: flatPairs l := by
  induction l with
  | nil =>
    intro acc hacc
    show splitOnByte 92 (acc ++ UserInfo.as_string []) = acc :: flatPairs []
    rw [show UserInfo.as_string [] = [] from rfl, List.append_nil,
        splitOnByte_nosep 92 acc hacc]
    rfl
  | cons kv t ih =>
    intro acc hacc
    obtain ⟨k, v⟩ := kv
    have hk := (hnb (k, v) (by simp)).1
    have hv := (hnb (k, v) (by simp)).2
    have hrep : acc ++ UserInfo.as_string ((k, v) :: t) =
        acc ++ 92 :: (k ++ 92 :: (v ++ UserInfo.as_string t)) := by
      simp [UserInfo.as_string]
    rw [hrep, splitOnByte_append 92 acc _ hacc, splitOnByte_append 92 k _ hk,
        ih (fun p hp => hnb p (by simp [hp])) v hv]
    rfl

/-- Re-pairing the alternating chunk list recovers the pairs. -/
theorem pairUp_flatPairs (l : List (List Nat × List Nat)) : pairUp (flatPairs l) = l := by
  induction l with
  | nil => rfl
  | cons kv t ih =>
    obtain ⟨k, v⟩ := kv
    show pairUp (k :: v :: flatPairs t) = (k, v) :: t
    rw [show pairUp (k :: v :: flatPairs t) = (k, v) :: pairUp (flatPairs t) from rfl, ih]

/-- Folding `insert` over pairs whose keys are fresh and pairwise distinct
just appends them. -/
theorem foldl_insertKV (l : List (List Nat × List Nat)) :
    ∀ acc : List (List Nat × List Nat),
      (∀ p ∈ l, ∀ q ∈ acc, q.1 ≠ p.1) → (l.map Prod.fst).Nodup →
      l.foldl (fun acc p => insertKV acc p.1 p.2) acc = acc ++ l := by
  induction l with
  | nil =>
    intro acc _ _
    simp
  | cons kv t ih =>
    intro acc hdis hnd
    obtain ⟨k, v⟩ := kv
    have hnotin : ¬(acc.any (fun p => p.1 = k) = true) := by
      simp only [List.any_eq_true, decide_eq_true_eq, not_exists]
      intro q hq
      exact hdis (k, v) (by simp) q hq.1 hq.2
    rw [List.foldl_cons,
        show insertKV acc k v = acc ++ [(k, v)] from by unfold insertKV; rw [if_neg hnotin]]
    have hnd2 : (t.map Prod.fst).Nodup := by
      simp only [List.map_cons, List.nodup_cons] at hnd
      exact hnd.2
    have hknot : k ∉ t.map Prod.fst := by
      simp only [List.map_cons, List.nodup_cons] at hnd
      exact hnd.1
    rw [ih (acc ++ [(k, v)]) ?_ hnd2]
    · simp
    · intro p hp q hq
      rcases List.mem_append.mp hq with hq1 | hq2
      · exact hdis p (by simp [hp]) q hq1
      · have hqkv : q = (k, v) := by simpa using hq2
        subst hqkv
        intro he
        exact hknot (List.mem_map.mpr ⟨p, hp, he.symm⟩)

/-- C9: for every listing of a userinfo mapping with pairwise-distinct
keys and no backslash byte in any key or value, formatting and re-parsing
returns exactly the same pairs — `from_string (as_string m) = m`,
whatever order the pairs were emitted in. -/
theorem c9_userinfo_roundtrip (l : List (List Nat × List Nat))
    (hnd : (l.map Prod.fst).Nodup)
    (hnb : ∀ p ∈ l, (∀ b ∈ p.1, b ≠ 92) ∧ (∀ b ∈ p.2, b ≠ 92)) :
    UserInfo.from_string (UserInfo.as_string l) = l := by
  rcases l with _ | ⟨⟨k, v⟩, t⟩
  · rfl
  · have hhead : (UserInfo.as_string ((k, v) :: t)).head? = some 92 := by
      simp [UserInfo.as_string]
    unfold UserInfo.from_string
    rw [if_pos hhead,
        show UserInfo.as_string ((k, v) :: t) = [] ++ UserInfo.as_string ((k, v) :: t)
          from rfl,
        splitOnByte_acc_as_string ((k, v) :: t) hnb [] (by simp), List.drop_one,
        List.tail_cons, pairUp_flatPairs,
        foldl_insertKV ((k, v) :: t) [] (by simp) hnd]
    rfl

/-- Witness for C9 at the one-pair mapping `{n ↦ p}`. -/
theorem c9_witness :
    UserInfo.from_string (UserInfo.as_string [([110], [112])]) = [([110], [112])] :=
  c9_userinfo_roundtrip [([110], [112])] (by decide) (by decide)

/-! ## Stuff-text handling (src/lib.rs, `Q2ProtoClient::check_stuffcmd`)

The session state projected to what the handler touches: the connected
flag, the version string, the channel's `message` buffer and the last
precache sequence.  (`last_msg_sent_time` is an `Instant` reset in the
precache branch; real time is outside the embedding.)  Values of `none`
model panics, as elsewhere. -/

structure ClientState where
  connected : Bool
  version : List Nat
  message : MsgBuf
  last_precache_value : Nat
deriving DecidableEq

/-- `b"cmd \x7fc"` — the six bytes `c m d SP 0x7F c`. -/
def stuffcmdHead : List Nat := [99, 109, 100, 32, 127, 99]

/-- The bytes of `version`. -/
def versionLit : List Nat := [118, 101, 114, 115, 105, 111, 110]

/-- The bytes of `actoken`. -/
def actokenLit : List Nat := [97, 99, 116, 111, 107, 101, 110]

/-- The bytes of `precache`. -/
def precacheLit : List Nat := [112, 114, 101, 99, 97, 99, 104, 101]

/-- The bytes of `changing`. -/
def changingLit : List Nat := [99, 104, 97, 110, 103, 105, 110, 103]

/-- The bytes of `begin`. -/
def beginLit : List Nat := [98, 101, 103, 105, 110]

/-- A UTF-8 continuation byte (`0x80..=0xBF`). -/
def utf8Cont (b : Nat) : Bool := 128 ≤ b && b ≤ 191

/-- `String::from_utf8` validity at byte level: standard UTF-8 with the
overlong, surrogate and > U+10FFFF exclusions. -/
def utf8Valid : List Nat → Bool
  | [] => true
  | b :: rest =>
    if b ≤ 127 then utf8Valid rest
    else
      match rest with
      | [] => false
      | c1 :: r1 =>
        if 194 ≤ b && b ≤ 223 then utf8Cont c1 && utf8Valid r1
        else
          match r1 with
          | [] => false
          | c2 :: r2 =>
            if b = 224 then (160 ≤ c1 && c1 ≤ 191) && utf8Cont c2 && utf8Valid r2
            else if (225 ≤ b && b ≤ 236) || b = 238 || b = 239 then
              utf8Cont c1 && utf8Cont c2 && utf8Valid r2
            else if b = 237 then (128 ≤ c1 && c1 ≤ 159) && utf8Cont c2 && utf8Valid r2
            else
              match r2 with
              | [] => false
              | c3 :: r3 =>
                if b = 240 then
                  (144 ≤ c1 && c1 ≤ 191) && utf8Cont c2 && utf8Cont c3 && utf8Valid r3
                else if 241 ≤ b && b ≤ 243 then
                  utf8Cont c1 && utf8Cont c2 && utf8Cont c3 && utf8Valid r3
                else if b = 244 then
                  (128 ≤ c1 && c1 ≤ 143) && utf8Cont c2 && utf8Cont c3 && utf8Valid r3
                else false

/-- `str::parse::<u32>()`: optional leading `+`, then one or more ASCII
digits, rejecting overflow past `u32::MAX`. -/
def parseU32 (s : List Nat) : Option Nat :=
  let s2 := match s with
    | 43 :: t => t
    | _ => s
  if s2 = [] then none
  else if s2.all (fun c => 48 ≤ c && c ≤ 57) then
    let v := s2.foldl (fun a c => a * 10 + (c - 48)) 0
    if v < 4294967296 then some v else none
  else none

/-- Decimal digits of a positive number, most significant first. -/
def natDigits : Nat → List Nat
  | 0 => []
  | n + 1 => natDigits ((n + 1) / 10) ++ [(n + 1) % 10 + 48]
decreasing_by exact Nat.div_lt_self (Nat.succ_pos n) (by norm_num)

/-- `format!("{}", n)` for a `u32`. -/
def natDecimal (n : Nat) : List Nat := if n = 0 then [48] else natDigits n

/-- `send_command`: fails when not connected; otherwise appends the
StringCmd op byte (4) and the NUL-terminated command through
`write_string` (which fails past `MAX_NET_STRING`). -/
def sendCommand (st : ClientState) (cmd : List Nat) : ClientState × Bool :=
  if st.connected = false then (st, false)
  else
    let r := (st.message.writeU8 4).write_string cmd
    ({ st with message := r.1 }, r.2)

/-- `send_result_command`: like `send_command` but inserting the
`\x7Fc ` result prefix between the op byte and the payload. -/
def sendResultCommand (st : ClientState) (cmd : List Nat) : ClientState × Bool :=
  if st.connected = false then (st, false)
  else
    let r := ((st.message.writeU8 4).writeAll [127, 99, 32]).write_string cmd
    ({ st with message := r.1 }, r.2)

/-- One line of `check_stuffcmd`'s loop.  `none` is a panic (the
unchecked slices `bytes[7..]` and `bytes[9..]`); `some (st, false)` is the
early `return false` on a UTF-8 error in the sub-command. -/
def checkLine (st : ClientState) (line : List Nat) : Option (ClientState × Bool) :=
  let step1 : Option (Option ClientState) :=
    if List.isPrefixOf stuffcmdHead line then
      if 7 ≤ line.length then
        let cs := line.drop 7
        if utf8Valid cs then
          if List.isPrefixOf versionLit cs then
            some (some (sendResultCommand st
              (versionLit ++ [32, 34] ++ st.version ++ [34])).1)
          else if List.isPrefixOf actokenLit cs then
            some (some (sendResultCommand st actokenLit).1)
          else some (some st)
        else some none
      else none
    else some (some st)
  match step1 with
  | none => none
  | some none => some (st, false)
  | some (some st1) =>
    if List.isPrefixOf precacheLit line then
      if 9 ≤ line.length then
        let arg := line.drop 9
        let v := if utf8Valid arg then (parseU32 arg).getD 0 else 0
        let st2 := { st1 with last_precache_value := v }
        some ((sendCommand st2 (beginLit ++ [32] ++ natDecimal v)).1, true)
      else none
    else some (st1, true)

/-- The per-line loop of `check_stuffcmd` over the `\n`-split lines. -/
def checkStuffLines : ClientState → List (List Nat) → Option (ClientState × Bool)
  | st, [] => some (st, true)
  | st, line :: rest =>
    match checkLine st line with
    | none => none
    | some (st1, false) => some (st1, false)
    | some (st1, true) => checkStuffLines st1 rest

/-- `check_stuffcmd`: split the stuff-text on `\n` and run the loop. -/
def check_stuffcmd (st : ClientState) (stuff : List Nat) :
    Option (ClientState × Bool) :=
  checkStuffLines st (splitOnByte 10 stuff)

/-- Counterexample to C3 as stated: on a connected session, the stuff-text
`cmd \x7Fcversion\n` (no byte between the 6-byte prefix `cmd \x7Fc` and
`version`) queues nothing — the handler strips 7 bytes (`&bytes[7..]`), so
the sub-command it examines is `ersion`, which matches neither `version`
nor `actoken`; the message buffer stays empty and no StringCmd is
queued. -/
theorem c3_counterexample :
    check_stuffcmd ⟨true, [49], MsgBuf.new, 0⟩
        [99, 109, 100, 32, 127, 99, 118, 101, 114, 115, 105, 111, 110, 10] =
      some (⟨true, [49], MsgBuf.new, 0⟩, true) ∧
    (⟨true, [49], MsgBuf.new, 0⟩ : ClientState).message.buf = [] := by
  decide

/-- C3 amended: the reply needs a separator byte after the 6-byte prefix,
because the handler strips 7 bytes before matching the sub-command.  For
the stuff-text `cmd \x7Fc version\n` on a connected session (with a
version string short enough for `write_string`), a reliable StringCmd is
queued: the op byte 4 followed by a payload beginning
`\x7Fc version "<version>"`, NUL-terminated. -/
theorem c3_amended (st : ClientState) (hc : st.connected = true)
    (hv : st.version.length + 10 ≤ MAX_NET_STRING) :
    check_stuffcmd st ([99, 109, 100, 32, 127, 99, 32] ++ versionLit ++ [10]) =
      some ({ st with message := ⟨st.message.buf ++
          4 :: ([127, 99, 32] ++ (versionLit ++ [32, 34] ++ st.version ++ [34]) ++ [0])⟩ },
        true) := by
  have hsplit : splitOnByte 10 ([99, 109, 100, 32, 127, 99, 32] ++ versionLit ++ [10]) =
      [[99, 109, 100, 32, 127, 99, 32] ++ versionLit, []] := by decide
  unfold check_stuffcmd
  rw [hsplit]
  simp [checkStuffLines, checkLine, sendResultCommand, MsgBuf.write_string,
        MsgBuf.writeAll, MsgBuf.writeU8, hc, versionLit, stuffcmdHead,
        precacheLit, actokenLit, utf8Valid, utf8Cont, List.isPrefixOf]
  rw [if_neg (by unfold MAX_NET_STRING at hv ⊢; omega)]

/-- Witness for C3 amended on a concrete connected session with version
`1`. -/
theorem c3_amended_witness :
    check_stuffcmd ⟨true, [49], MsgBuf.new, 0⟩
        ([99, 109, 100, 32, 127, 99, 32] ++ versionLit ++ [10]) =
      some (⟨true, [49], ⟨[4, 127, 99, 32, 118, 101, 114, 115, 105, 111, 110, 32, 34,
        49, 34, 0]⟩, 0⟩, true) := by
  have h := c3_amended ⟨true, [49], MsgBuf.new, 0⟩ rfl (by decide)
  rw [h]
  rfl

/-- C8 is right about the intent and the code panics: the 8-byte line
`precache` begins with `precache`, but the handler then evaluates
`bytes[9..]`, whose start index 9 exceeds the length 8 — an out-of-bounds
slice panic instead of the specified default 0.  (With an argument, e.g.
`precache 30`, the decimal at offset 9 is parsed as specified.) -/
theorem c8_precache_panics :
    check_stuffcmd ⟨true, [49], MsgBuf.new, 0⟩ precacheLit = none ∧
    List.isPrefixOf precacheLit precacheLit = true ∧
    precacheLit.length = 8 ∧
    (check_stuffcmd ⟨true, [49], MsgBuf.new, 0⟩ (precacheLit ++ [32, 51, 48])).map
      (fun r => r.1.last_precache_value) = some 30 := by
  decide

end Q2Proto
